import Mathlib

/-!
# Verification of the hw2 optimization/training notebook

A shallow embedding of the optimizers (vanilla SGD with L2 regularization,
SGD with momentum, RMSProp), the `Trainer` abstraction, the `Dropout` layer
and the `MLP` block sequence described by the Part2_Optimization notebook,
with theorems checking the stated properties.  Parameter tensors are
modelled elementwise as functions `Fin n → ℝ`.
-/

namespace HW2

/-- Modelled from the spec: the elementwise update applied by
`VanillaSGD.step` in the missing `hw2/optimizers.py`, following the
notebook's rule θ ← θ − η (δθ + λ θ), the gradient being augmented with
the gradient of the L2 penalty. -/
def vanillaSGDUpdate (eta lam : ℝ) (theta dtheta : ℝ) : ℝ :=
  theta - eta * (dtheta + lam * theta)

namespace VanillaSGD

/-- Modelled from the spec: `VanillaSGD.step` of the missing
`hw2/optimizers.py`, acting on one parameter tensor `theta` with gradient
`dtheta`, elementwise by `vanillaSGDUpdate`. -/
def step (eta lam : ℝ) {n : ℕ} (theta dtheta : Fin n → ℝ) : Fin n → ℝ :=
  fun j => vanillaSGDUpdate eta lam (theta j) (dtheta j)

end VanillaSGD

/-- The L2 regularization penalty R(θ) = (1/2) λ ‖θ‖₂² from the notebook. -/
noncomputable def l2reg (lam : ℝ) {n : ℕ} (v : Fin n → ℝ) : ℝ :=
  (1 / 2) * lam * ∑ i, (v i) ^ 2

/-- The partial derivative of the L2 penalty with respect to coordinate `j`
is `lam * theta j`. -/
lemma l2reg_coord_deriv (lam : ℝ) {n : ℕ} (theta : Fin n → ℝ) (j : Fin n) :
    deriv (fun x => l2reg lam (Function.update theta j x)) (theta j)
      = lam * theta j := by
  have hfun : (fun x => l2reg lam (Function.update theta j x))
      = fun x => (1 / 2) * lam * x ^ 2
          + (1 / 2) * lam * ∑ i ∈ Finset.univ.erase j, (theta i) ^ 2 := by
    funext x
    unfold l2reg
    rw [← Finset.add_sum_erase _ _ (Finset.mem_univ j)]
    rw [Function.update_same]
    rw [Finset.sum_congr rfl
      (fun i hi => by rw [Function.update_noteq (Finset.ne_of_mem_erase hi)])]
    ring
  rw [hfun]
  have hd : HasDerivAt
      (fun x : ℝ => (1 / 2) * lam * x ^ 2
        + (1 / 2) * lam * ∑ i ∈ Finset.univ.erase j, (theta i) ^ 2)
      ((1 / 2) * lam * (2 * theta j ^ 1)) (theta j) := by
    exact ((hasDerivAt_pow 2 (theta j)).const_mul ((1 / 2) * lam)).add_const _
  rw [hd.deriv]
  ring

/-- Modelled from the spec: the per-parameter state kept by `MomentumSGD`
of the missing `hw2/optimizers.py`: the parameter tensor and its velocity. -/
structure MomentumState (n : ℕ) where
  theta : Fin n → ℝ
  velocity : Fin n → ℝ

namespace MomentumSGD

/-- Modelled from the spec: `MomentumSGD.__init__` of the missing
`hw2/optimizers.py`: the velocity is zero before the first step. -/
def init {n : ℕ} (theta0 : Fin n → ℝ) : MomentumState n :=
  ⟨theta0, fun _ => 0⟩

/-- Modelled from the spec: `MomentumSGD.step` of the missing
`hw2/optimizers.py`, following the notebook's rule
v ← μ v − η δθ, then θ ← θ + v. -/
def step (eta mu : ℝ) {n : ℕ} (grad : Fin n → ℝ) (s : MomentumState n) :
    MomentumState n :=
  let v := fun j => mu * s.velocity j - eta * grad j
  ⟨fun j => s.theta j + v j, v⟩

end MomentumSGD

/-- Modelled from the spec: the per-parameter state kept by `RMSProp` of the
missing `hw2/optimizers.py`: the parameter tensor and the decaying moving
average `r` of squared gradients. -/
structure RMSPropState (n : ℕ) where
  theta : Fin n → ℝ
  r : Fin n → ℝ

namespace RMSProp

/-- Modelled from the spec: `RMSProp.__init__` of the missing
`hw2/optimizers.py`: the moving average `r` is zero before the first step. -/
def init {n : ℕ} (theta0 : Fin n → ℝ) : RMSPropState n :=
  ⟨theta0, fun _ => 0⟩

/-- Modelled from the spec: `RMSProp.step` of the missing
`hw2/optimizers.py`, following the notebook's rule
r ← γ r + (1−γ) δθ² then θ ← θ − (η / √(r + ε)) δθ, elementwise. -/
noncomputable def step (eta gamma eps : ℝ) {n : ℕ} (grad : Fin n → ℝ)
    (s : RMSPropState n) : RMSPropState n :=
  let r := fun j => gamma * s.r j + (1 - gamma) * (grad j) ^ 2
  ⟨fun j => s.theta j - (eta / Real.sqrt (r j + eps)) * grad j, r⟩

end RMSProp

/-- C1: one `VanillaSGD.step` call replaces each parameter entry θⱼ by
θⱼ − η (δθⱼ + λ θⱼ), which is the basic gradient-descent rule applied to
the gradient augmented with the partial derivative of the L2 penalty
R(θ) = (1/2) λ ‖θ‖₂². -/
theorem vanillaSGD_step_l2_regularized_descent (eta lam : ℝ) {n : ℕ}
    (theta dtheta : Fin n → ℝ) (j : Fin n) :
    VanillaSGD.step eta lam theta dtheta j
        = theta j - eta * (dtheta j + lam * theta j)
    ∧ VanillaSGD.step eta lam theta dtheta j
        = theta j - eta * (dtheta j
            + deriv (fun x => l2reg lam (Function.update theta j x)) (theta j)) := by
  constructor
  · rfl
  · rw [l2reg_coord_deriv]
    rfl

/-- C2: a `MomentumSGD` optimizer with 0 ≤ μ < 1 has zero velocity before
the first step, and every `step` call first sets v ← μ v − η δθ and then
sets θ ← θ + v. -/
theorem momentumSGD_step_velocity_update (eta mu : ℝ) {n : ℕ}
    (grad : Fin n → ℝ) (s : MomentumState n) (theta0 : Fin n → ℝ) (j : Fin n)
    (hmu : 0 ≤ mu ∧ mu < 1) :
    (MomentumSGD.init theta0).velocity j = 0
    ∧ (MomentumSGD.step eta mu grad s).velocity j
        = mu * s.velocity j - eta * grad j
    ∧ (MomentumSGD.step eta mu grad s).theta j
        = s.theta j + (MomentumSGD.step eta mu grad s).velocity j := by
  exact ⟨rfl, rfl, rfl⟩

/-- Witness for C2: at η = 1, μ = 1/2, θ = 2, v = 5, δθ = 1, a step produces
velocity 1/2·5 − 1·1 = 3/2 and parameter 2 + 3/2 = 7/2, and the initial
velocity is 0. -/
theorem momentumSGD_step_velocity_update_witness :
    (MomentumSGD.init (fun _ : Fin 1 => (7 : ℝ))).velocity 0 = 0
    ∧ (MomentumSGD.step 1 (1 / 2) (fun _ : Fin 1 => 1)
        ⟨fun _ => 2, fun _ => 5⟩).velocity 0 = 3 / 2
    ∧ (MomentumSGD.step 1 (1 / 2) (fun _ : Fin 1 => 1)
        ⟨fun _ => 2, fun _ => 5⟩).theta 0 = 7 / 2 := by
  obtain ⟨h1, h2, h3⟩ := momentumSGD_step_velocity_update 1 (1 / 2)
    (fun _ : Fin 1 => 1) ⟨fun _ => 2, fun _ => 5⟩ (fun _ => 7) 0
    ⟨by norm_num, by norm_num⟩
  refine ⟨h1, ?_, ?_⟩
  · rw [h2]; norm_num
  · rw [h3, h2]; norm_num

/-- C3: an `RMSProp` optimizer with 0 < γ < 1 has zero moving average before
the first step, and every `step` call first sets r ← γ r + (1−γ) δθ²
(elementwise squaring) and then sets θ ← θ − (η / √(r + ε)) δθ. -/
theorem rmsProp_step_moving_average_update (eta gamma eps : ℝ) {n : ℕ}
    (grad : Fin n → ℝ) (s : RMSPropState n) (theta0 : Fin n → ℝ) (j : Fin n)
    (hg : 0 < gamma ∧ gamma < 1) :
    (RMSProp.init theta0).r j = 0
    ∧ (RMSProp.step eta gamma eps grad s).r j
        = gamma * s.r j + (1 - gamma) * (grad j) ^ 2
    ∧ (RMSProp.step eta gamma eps grad s).theta j
        = s.theta j
          - (eta / Real.sqrt ((RMSProp.step eta gamma eps grad s).r j + eps))
            * grad j := by
  exact ⟨rfl, rfl, rfl⟩

/-- Witness for C3: at η = 1, γ = 1/2, ε = 2, θ = 3, r = 0, δθ = 2, a step
produces r = 1/2·0 + 1/2·4 = 2 and parameter 3 − (1/√4)·2 = 2, and the
initial moving average is 0. -/
theorem rmsProp_step_moving_average_update_witness :
    (RMSProp.init (fun _ : Fin 1 => (3 : ℝ))).r 0 = 0
    ∧ (RMSProp.step 1 (1 / 2) 2 (fun _ : Fin 1 => 2) ⟨fun _ => 3, fun _ => 0⟩).r 0 = 2
    ∧ (RMSProp.step 1 (1 / 2) 2 (fun _ : Fin 1 => 2)
        ⟨fun _ => 3, fun _ => 0⟩).theta 0 = 2 := by
  obtain ⟨h1, h2, h3⟩ := rmsProp_step_moving_average_update 1 (1 / 2) 2
    (fun _ : Fin 1 => 2) ⟨fun _ => 3, fun _ => 0⟩ (fun _ => 3) 0
    ⟨by norm_num, by norm_num⟩
  have hr : (RMSProp.step 1 (1 / 2) 2 (fun _ : Fin 1 => 2)
      ⟨fun _ => 3, fun _ => 0⟩ : RMSPropState 1).r 0 = 2 := by
    rw [h2]; norm_num
  refine ⟨h1, hr, ?_⟩
  rw [h3, hr]
  rw [show ((2 : ℝ) + 2) = 2 ^ 2 by norm_num,
    Real.sqrt_sq (by norm_num : (0 : ℝ) ≤ 2)]
  norm_num

/-- Modelled from the spec: an optimizer as in the missing
`hw2/optimizers.py`, seen through a heap of parameter cells.  It holds the
addresses of the parameter tensors it was constructed with, their gradients,
and per-address internal state `σ` (empty for `VanillaSGD`, the velocity for
`MomentumSGD`, the moving average for `RMSProp`). -/
structure HeapOpt (σ : Type) where
  addrs : List ℕ
  grad : ℕ → ℝ
  internal : ℕ → σ

namespace HeapOpt

/-- Modelled from the spec: `step` of any optimizer of the missing
`hw2/optimizers.py`, with update rule `upd` taking a parameter value, its
gradient and the internal state.  It writes the updated values back into the
heap at the addresses it holds, leaving every other cell and its own address
list untouched. -/
def step {σ : Type} (upd : ℝ → ℝ → σ → ℝ × σ) (o : HeapOpt σ) (h : ℕ → ℝ) :
    HeapOpt σ × (ℕ → ℝ) :=
  (⟨o.addrs, o.grad,
      fun a => if a ∈ o.addrs then (upd (h a) (o.grad a) (o.internal a)).2
               else o.internal a⟩,
   fun a => if a ∈ o.addrs then (upd (h a) (o.grad a) (o.internal a)).1
            else h a)

end HeapOpt

/-- C4: for every optimizer update rule (covering `VanillaSGD`,
`MomentumSGD` and `RMSProp`), `step` mutates the parameter cells in place:
it keeps the very addresses it was given, any caller reading a held address
afterwards observes the updated value, and no other heap cell changes. -/
theorem optimizer_step_in_place {σ : Type} (upd : ℝ → ℝ → σ → ℝ × σ)
    (o : HeapOpt σ) (h : ℕ → ℝ) :
    ((HeapOpt.step upd o h).1.addrs = o.addrs)
    ∧ (∀ a, a ∈ o.addrs →
        (HeapOpt.step upd o h).2 a = (upd (h a) (o.grad a) (o.internal a)).1)
    ∧ (∀ a, a ∉ o.addrs → (HeapOpt.step upd o h).2 a = h a) := by
  refine ⟨rfl, fun a ha => ?_, fun a ha => ?_⟩
  · simp [HeapOpt.step, ha]
  · simp [HeapOpt.step, ha]

/-- Witness for C4: an optimizer holding address 2 with gradient 1 and the
vanilla rule θ ← θ − δθ over the heap constantly 5: the step keeps the
address list `[2]`, cell 2 reads 4 afterwards, and cell 3 still reads 5. -/
theorem optimizer_step_in_place_witness :
    ((HeapOpt.step (fun t dt _ => (t - dt, ()))
        ⟨[2], fun _ => 1, fun _ => ()⟩ (fun _ => 5)).1.addrs = [2])
    ∧ ((HeapOpt.step (fun t dt _ => (t - dt, ()))
        ⟨[2], fun _ => 1, fun _ => ()⟩ (fun _ => 5)).2 2 = 4)
    ∧ ((HeapOpt.step (fun t dt _ => (t - dt, ()))
        ⟨[2], fun _ => 1, fun _ => ()⟩ (fun _ => 5)).2 3 = 5) := by
  obtain ⟨h1, h2, h3⟩ := optimizer_step_in_place
    (fun t dt (_ : Unit) => (t - dt, ()))
    ⟨[2], fun _ => 1, fun _ => ()⟩ (fun _ => 5)
  refine ⟨h1, ?_, ?_⟩
  · have := h2 2 (by simp)
    rw [this]; norm_num
  · exact h3 3 (by simp)

namespace Dropout

/-- Modelled from the spec: the training-mode forward pass of the `Dropout`
layer of the missing `hw2/layers.py`.  The Bernoulli(p) sampling is
abstracted into the given `mask`: a masked activation is zeroed, a surviving
one is scaled by 1/(1−p). -/
noncomputable def forwardTrain (p : ℝ) {n : ℕ} (mask : Fin n → Bool)
    (x : Fin n → ℝ) : Fin n → ℝ :=
  fun j => if mask j then 0 else x j / (1 - p)

/-- Modelled from the spec: the test-mode forward pass of the `Dropout`
layer of the missing `hw2/layers.py`: a no-op. -/
def forwardTest {n : ℕ} (x : Fin n → ℝ) : Fin n → ℝ := x

/-- Modelled from the spec: the context the `Dropout` layer of the missing
`hw2/layers.py` saves during the forward pass for use in `backward`. -/
structure Ctx (n : ℕ) where
  p : ℝ
  mask : Fin n → Bool

/-- Modelled from the spec: the training-mode forward pass of `Dropout`
returning its output together with the saved context. -/
noncomputable def forward (p : ℝ) {n : ℕ} (mask : Fin n → Bool)
    (x : Fin n → ℝ) : (Fin n → ℝ) × Ctx n :=
  (forwardTrain p mask x, ⟨p, mask⟩)

/-- Modelled from the spec: the backward pass of the `Dropout` layer of the
missing `hw2/layers.py`: the upstream gradient is propagated, scaled like
the forward pass, only into activations the saved mask did not drop. -/
noncomputable def backward {n : ℕ} (ctx : Ctx n) (dout : Fin n → ℝ) :
    Fin n → ℝ :=
  fun j => if ctx.mask j then 0 else dout j / (1 - ctx.p)

end Dropout

/-- C6: in training mode `Dropout` zeroes each masked activation and scales
each surviving one by 1/(1−p); in test mode it returns its input unchanged;
and the Bernoulli(p) expectation of a training-mode activation equals the
unscaled input, which is the compensation the notebook states as scaling
test-time activations by 1−p. -/
theorem dropout_forward_mask_scale (p : ℝ) {n : ℕ} (mask : Fin n → Bool)
    (x : Fin n → ℝ) (j : Fin n) (h0 : 0 ≤ p) (h1 : p < 1) :
    (mask j = true → Dropout.forwardTrain p mask x j = 0)
    ∧ (mask j = false →
        Dropout.forwardTrain p mask x j = x j * (1 / (1 - p)))
    ∧ Dropout.forwardTest x j = x j
    ∧ p * 0 + (1 - p) * (x j * (1 / (1 - p))) = x j := by
  have hne : (1 : ℝ) - p ≠ 0 := by linarith
  refine ⟨fun hm => ?_, fun hm => ?_, rfl, ?_⟩
  · simp [Dropout.forwardTrain, hm]
  · simp [Dropout.forwardTrain, hm]
    ring
  · field_simp

/-- Witness for C6: with p = 1/2 and input 6, a surviving activation becomes
6·(1/(1−1/2)) = 12, test mode returns 6, and the expected training-mode
activation 1/2·0 + 1/2·12 is again 6. -/
theorem dropout_forward_mask_scale_witness :
    Dropout.forwardTrain (1 / 2) (fun _ : Fin 1 => false)
        (fun _ => (6 : ℝ)) 0 = 12
    ∧ Dropout.forwardTest (fun _ : Fin 1 => (6 : ℝ)) 0 = 6
    ∧ (1 / 2 : ℝ) * 0 + (1 - 1 / 2) * ((6 : ℝ) * (1 / (1 - 1 / 2))) = 6 := by
  obtain ⟨h1, h2, h3, h4⟩ := dropout_forward_mask_scale (1 / 2)
    (fun _ : Fin 1 => false) (fun _ => (6 : ℝ)) 0
    (by norm_num) (by norm_num)
  refine ⟨?_, h3, h4⟩
  rw [h2 rfl]; norm_num

/-- C7: the context saved by the `Dropout` forward pass carries exactly the
mask sampled there, the backward pass sends zero gradient into every dropped
activation, and on every coordinate the propagated gradient is the upstream
gradient times the derivative of the forward pass at that coordinate. -/
theorem dropout_backward_mask (p : ℝ) {n : ℕ} (mask : Fin n → Bool)
    (x dout : Fin n → ℝ) (j : Fin n) :
    ((Dropout.forward p mask x).2.mask = mask)
    ∧ (mask j = true →
        Dropout.backward (Dropout.forward p mask x).2 dout j = 0)
    ∧ Dropout.backward (Dropout.forward p mask x).2 dout j
        = dout j
          * deriv (fun v => Dropout.forwardTrain p mask
              (Function.update x j v) j) (x j) := by
  refine ⟨rfl, fun hm => ?_, ?_⟩
  · simp [Dropout.backward, Dropout.forward, hm]
  · by_cases hm : mask j
    · have hconst : (fun v => Dropout.forwardTrain p mask
          (Function.update x j v) j) = fun _ => (0 : ℝ) := by
        funext v
        simp [Dropout.forwardTrain, hm]
      rw [hconst]
      simp [Dropout.backward, Dropout.forward, hm]
    · have hlin : (fun v => Dropout.forwardTrain p mask
          (Function.update x j v) j) = fun v => v / (1 - p) := by
        funext v
        simp [Dropout.forwardTrain, hm]
      rw [hlin]
      have hd : HasDerivAt (fun v : ℝ => v / (1 - p)) (1 / (1 - p)) (x j) :=
        (hasDerivAt_id (x j)).div_const (1 - p)
      rw [hd.deriv]
      simp [Dropout.backward, Dropout.forward, hm]
      ring

/-- Witness for C7: with p = 1/2 and a mask dropping the single coordinate,
the saved mask is the sampled one and the propagated gradient is 0. -/
theorem dropout_backward_mask_witness :
    ((Dropout.forward (1 / 2) (fun _ : Fin 1 => true)
        (fun _ => (3 : ℝ))).2.mask = fun _ => true)
    ∧ Dropout.backward (Dropout.forward (1 / 2) (fun _ : Fin 1 => true)
        (fun _ => (3 : ℝ))).2 (fun _ => 4) 0 = 0 := by
  obtain ⟨h1, h2, h3⟩ := dropout_backward_mask (1 / 2)
    (fun _ : Fin 1 => true) (fun _ => (3 : ℝ)) (fun _ => 4) 0
  exact ⟨h1, h2 rfl⟩

/-- Modelled from the spec: the `BatchResult` of the missing
`hw2/training.py`: a single loss and the number of correctly classified
samples in the batch. -/
structure BatchResult where
  loss : ℝ
  num_correct : ℕ

/-- Modelled from the spec: the `EpochResult` of the missing
`hw2/training.py`: the losses per batch and the single accuracy of the
epoch. -/
structure EpochResult where
  losses : List ℝ
  accuracy : ℝ

/-- Modelled from the spec: the `FitResult` of the missing
`hw2/training.py`: number of epochs with the losses and accuracies of all
epochs, for the training and the test set. -/
structure FitResult where
  num_epochs : ℕ
  train_loss : List ℝ
  train_acc : List ℝ
  test_loss : List ℝ
  test_acc : List ℝ

/-- Modelled from the spec: the base `Trainer` of the missing
`hw2/training.py`.  Only the single-batch level is abstract: inheriting
classes supply `train_batch` (which may update the model state `S`) and
`test_batch`; the epoch and fit levels are implemented below on top of
them. -/
structure Trainer (S B : Type) where
  train_batch : S → B → S × BatchResult
  test_batch : S → B → BatchResult

namespace Trainer

/-- The training loop over the batches of one epoch, threading the model
state and collecting the per-batch results. -/
def run_batches {S B : Type} (t : Trainer S B) : S → List B → S × List BatchResult
  | s, [] => (s, [])
  | s, b :: bs =>
    let sr := t.train_batch s b
    let rest := t.run_batches sr.1 bs
    (rest.1, sr.2 :: rest.2)

/-- Modelled from the spec: `Trainer.train_epoch` of the missing
`hw2/training.py`, implemented by the base class: train on every batch and
return the per-batch losses and the single epoch accuracy, 100 · (correct /
seen). -/
noncomputable def train_epoch {S B : Type} (t : Trainer S B) (sz : B → ℕ)
    (s : S) (dl : List B) : S × EpochResult :=
  let r := t.run_batches s dl
  (r.1, ⟨(r.2.map BatchResult.loss),
    100 * (((r.2.map BatchResult.num_correct).sum : ℝ) / ((dl.map sz).sum : ℝ))⟩)

/-- Modelled from the spec: `Trainer.test_epoch` of the missing
`hw2/training.py`, implemented by the base class: evaluate every batch
without updating the model and return the per-batch losses and the single
epoch accuracy. -/
noncomputable def test_epoch {S B : Type} (t : Trainer S B) (sz : B → ℕ)
    (s : S) (dl : List B) : EpochResult :=
  let rs := dl.map (t.test_batch s)
  ⟨rs.map BatchResult.loss,
    100 * (((rs.map BatchResult.num_correct).sum : ℝ) / ((dl.map sz).sum : ℝ))⟩

/-- Modelled from the spec: `Trainer.fit` of the missing `hw2/training.py`,
implemented by the base class: run `train_epoch` then `test_epoch` for each
of `ne` epochs, accumulating all losses and the accuracy of every epoch. -/
noncomputable def fit {S B : Type} (t : Trainer S B) (sz : B → ℕ) (s : S)
    (dl_train dl_test : List B) : (ne : ℕ) → S × FitResult
  | 0 => (s, ⟨0, [], [], [], []⟩)
  | k + 1 =>
    let te := t.train_epoch sz s dl_train
    let ev := t.test_epoch sz te.1 dl_test
    let rest := t.fit sz te.1 dl_train dl_test k
    (rest.1, ⟨k + 1, te.2.losses ++ rest.2.train_loss,
      te.2.accuracy :: rest.2.train_acc,
      ev.losses ++ rest.2.test_loss,
      ev.accuracy :: rest.2.test_acc⟩)

end Trainer

/-- Modelled from the spec: `LayerTrainer` of the missing `hw2/training.py`:
an inheriting class that supplies the two single-batch methods to the base
`Trainer`, which the base class left unimplemented. -/
def LayerTrainer {S B : Type} (fb : S → B → S × BatchResult)
    (tb : S → B → BatchResult) : Trainer S B :=
  ⟨fb, tb⟩

/-- One training epoch produces exactly one `BatchResult` per batch. -/
lemma run_batches_length {S B : Type} (t : Trainer S B) (s : S) (dl : List B) :
    (t.run_batches s dl).2.length = dl.length := by
  induction dl generalizing s with
  | nil => rfl
  | cons b bs ih =>
    simp only [Trainer.run_batches, List.length_cons]
    rw [ih]

/-- C5: the `Trainer` splits training into three levels.  `train_epoch` and
`test_epoch` each return an `EpochResult` with one loss per batch (plus its
single accuracy field); `fit` over `ne` epochs returns a `FitResult` holding
`ne` per-epoch train and test accuracies and all `ne · |dl|` per-batch
losses; and `LayerTrainer` is the inheriting class supplying the two
single-batch methods the base class leaves abstract. -/
theorem trainer_three_levels {S B : Type} (t : Trainer S B) (sz : B → ℕ)
    (s : S) (dl dl_train dl_test : List B) (ne : ℕ)
    (fb : S → B → S × BatchResult) (tb : S → B → BatchResult) :
    ((t.train_epoch sz s dl).2.losses.length = dl.length)
    ∧ ((t.test_epoch sz s dl).losses.length = dl.length)
    ∧ ((t.fit sz s dl_train dl_test ne).2.num_epochs = ne)
    ∧ ((t.fit sz s dl_train dl_test ne).2.train_acc.length = ne)
    ∧ ((t.fit sz s dl_train dl_test ne).2.test_acc.length = ne)
    ∧ ((t.fit sz s dl_train dl_test ne).2.train_loss.length
        = ne * dl_train.length)
    ∧ ((t.fit sz s dl_train dl_test ne).2.test_loss.length
        = ne * dl_test.length)
    ∧ ((LayerTrainer fb tb).train_batch = fb)
    ∧ ((LayerTrainer fb tb).test_batch = tb) := by
  refine ⟨?_, ?_, ?_, ?_, ?_, ?_, ?_, rfl, rfl⟩
  · simp [Trainer.train_epoch, run_batches_length]
  · simp [Trainer.test_epoch]
  all_goals induction ne generalizing s with
  | zero => simp [Trainer.fit]
  | succ k ih =>
    simp [Trainer.fit, ih, Trainer.train_epoch, run_batches_length,
      Trainer.test_epoch, Nat.succ_mul]
    try ring

/-- A block of the `MLP` layer sequence of the missing `hw2/layers.py`. -/
inductive Block where
  | linear (in_f out_f : ℕ)
  | relu
  | dropout (p : ℚ)
deriving DecidableEq

/-- Whether a block is a `Linear` block. -/
def Block.isLinear : Block → Bool
  | .linear _ _ => true
  | _ => false

/-- Whether a block is a `Dropout` block. -/
def Block.isDropout : Block → Bool
  | .dropout _ => true
  | _ => false

/-- Whether a block is a `ReLU` block. -/
def Block.isRelu : Block → Bool
  | .relu => true
  | _ => false

/-- Modelled from the spec: the hidden part of `MLP.__init__` of the missing
`hw2/layers.py`: for each hidden width a `Linear` block then a `ReLU` block,
followed by a `Dropout` block when `dropout > 0`. -/
def mlpHidden (dropout : ℚ) : ℕ → List ℕ → List Block
  | _, [] => []
  | prev, w :: ws =>
    [Block.linear prev w, Block.relu]
      ++ (if 0 < dropout then [Block.dropout dropout] else [])
      ++ mlpHidden dropout w ws

namespace MLP

/-- Modelled from the spec: the block sequence built by `MLP.__init__` of
the missing `hw2/layers.py`: the hidden blocks followed by a final `Linear`
block onto the classes. -/
def sequence (in_features num_classes : ℕ) (hidden_features : List ℕ)
    (dropout : ℚ) : List Block :=
  mlpHidden dropout in_features hidden_features
    ++ [Block.linear (hidden_features.getLastD in_features) num_classes]

end MLP

/-- Every `ReLU` block of the list is immediately followed by a `Dropout`
block. -/
def reluFollowedByDropout : List Block → Bool
  | [] => true
  | [b] => !b.isRelu
  | b1 :: b2 :: rest =>
    (!b1.isRelu || b2.isDropout) && reluFollowedByDropout (b2 :: rest)

/-- `reluFollowedByDropout` holds over an append when it holds of both parts
and the junction is safe. -/
lemma reluFollowedByDropout_append (l1 l2 : List Block)
    (h1 : reluFollowedByDropout l1 = true)
    (h2 : reluFollowedByDropout l2 = true)
    (hj : ∀ b, l1.getLast? = some b → b.isRelu = false) :
    reluFollowedByDropout (l1 ++ l2) = true := by
  induction l1 with
  | nil => simpa using h2
  | cons b bs ih =>
    cases bs with
    | nil =>
      cases l2 with
      | nil => simpa using h1
      | cons c cs =>
        have hb : b.isRelu = false := hj b rfl
        simp only [List.cons_append, List.nil_append, reluFollowedByDropout,
          hb, Bool.not_false, Bool.true_or, Bool.true_and]
        exact h2
    | cons c cs =>
      simp only [reluFollowedByDropout, Bool.and_eq_true] at h1
      have ih2 := ih h1.2 (by
        intro d hd
        exact hj d (by simpa using hd))
      simp only [List.cons_append, reluFollowedByDropout]
      cases hcs : ((c :: cs : List Block) ++ l2) with
      | nil => simp at hcs
      | cons e es =>
        have : (c :: cs : List Block) ++ l2 = c :: (cs ++ l2) := rfl
        rw [this] at hcs
        cases hcs
        have ih3 : reluFollowedByDropout (c :: (cs ++ l2)) = true := ih2
        simp only [Bool.and_eq_true]
        exact ⟨h1.1, ih3⟩

/-- With `dropout > 0`, the hidden block list satisfies the
ReLU-then-Dropout invariant and never ends in a `ReLU`. -/
lemma mlpHidden_relu_dropout (dropout : ℚ) (hd : 0 < dropout)
    (prev : ℕ) (ws : List ℕ) :
    reluFollowedByDropout (mlpHidden dropout prev ws) = true
    ∧ (∀ b, (mlpHidden dropout prev ws).getLast? = some b →
        b.isRelu = false) := by
  induction ws generalizing prev with
  | nil => exact ⟨rfl, by intro b hb; simp [mlpHidden] at hb⟩
  | cons w ws ih =>
    obtain ⟨ih1, ih2⟩ := ih w
    have hstep : mlpHidden dropout prev (w :: ws)
        = Block.linear prev w :: Block.relu :: Block.dropout dropout
            :: mlpHidden dropout w ws := by
      simp [mlpHidden, hd]
    constructor
    · rw [hstep]
      cases hrest : mlpHidden dropout w ws with
      | nil => rfl
      | cons c cs =>
        rw [hrest] at ih1
        simp only [reluFollowedByDropout, Block.isRelu, Block.isDropout,
          Bool.not_false, Bool.true_or, Bool.true_and, Bool.not_true,
          Bool.false_or, Bool.and_eq_true]
        simpa using ih1
    · intro b hb
      rw [hstep] at hb
      cases hrest : mlpHidden dropout w ws with
      | nil =>
        rw [hrest] at hb
        simp only [List.getLast?] at hb
        simp at hb
        rw [← hb]
        rfl
      | cons c cs =>
        rw [hrest] at hb ih2
        have : (Block.linear prev w :: Block.relu :: Block.dropout dropout
            :: c :: cs).getLast? = (c :: cs : List Block).getLast? := by
          simp [List.getLast?_cons_cons]
        rw [this] at hb
        exact ih2 b hb

/-- The hidden block list has three blocks per hidden width when
`dropout > 0`. -/
lemma mlpHidden_length (dropout : ℚ) (hd : 0 < dropout)
    (prev : ℕ) (ws : List ℕ) :
    (mlpHidden dropout prev ws).length = 3 * ws.length := by
  induction ws generalizing prev with
  | nil => rfl
  | cons w ws ih =>
    simp [mlpHidden, hd, ih w]
    ring

/-- C9: in an `MLP` built with `dropout > 0`, every `ReLU` block is
immediately followed by a `Dropout` block, the sequence ends with a `Linear`
block, and the sequence has 3 blocks per hidden layer plus the final
`Linear` — in particular 10 blocks for three hidden layers. -/
theorem mlp_sequence_dropout_blocks (in_features num_classes : ℕ)
    (hidden_features : List ℕ) (dropout : ℚ) (hd : 0 < dropout) :
    reluFollowedByDropout
        (MLP.sequence in_features num_classes hidden_features dropout) = true
    ∧ ((MLP.sequence in_features num_classes hidden_features dropout).getLastD
        Block.relu).isLinear = true
    ∧ (MLP.sequence in_features num_classes hidden_features dropout).length
        = 3 * hidden_features.length + 1 := by
  obtain ⟨h1, h2⟩ := mlpHidden_relu_dropout dropout hd in_features
    hidden_features
  refine ⟨?_, ?_, ?_⟩
  · exact reluFollowedByDropout_append _ _ h1 rfl h2
  · unfold MLP.sequence
    rw [List.getLastD_eq_getLast?]
    simp [Block.isLinear]
  · unfold MLP.sequence
    rw [List.length_append, mlpHidden_length dropout hd]
    simp

/-- Witness for C9: the notebook's `MLP(in_features, num_classes, [50]*3,
dropout=0.6)` yields a sequence of exactly 10 blocks with every `ReLU`
followed by a `Dropout` and a final `Linear`. -/
theorem mlp_sequence_dropout_blocks_witness :
    reluFollowedByDropout
        (MLP.sequence 3072 10 [50, 50, 50] (6 / 10)) = true
    ∧ ((MLP.sequence 3072 10 [50, 50, 50] (6 / 10)).getLastD
        Block.relu).isLinear = true
    ∧ (MLP.sequence 3072 10 [50, 50, 50] (6 / 10)).length = 10 := by
  obtain ⟨h1, h2, h3⟩ := mlp_sequence_dropout_blocks 3072 10 [50, 50, 50]
    (6 / 10) (by norm_num)
  refine ⟨h1, h2, ?_⟩
  rw [h3]
  rfl

/-- A reference to a serialized asset file named in the notebook; the only
one is `tests/assets/expected_vsgd.pt`, loaded by the VanillaSGD test. -/
inductive AssetFile where
  | expectedVsgdPt
deriving DecidableEq

/-- One side-effecting or checking operation performed inline by a code cell
of `Part2_Optimization-checkpoint.ipynb`, transcribed from the source. -/
inductive NBOp where
  | assertLess
  | assertGreaterEqual
  | assertEqual
  | assertTrue
  | torchLoad (f : AssetFile)
  | cifarDownload
deriving DecidableEq

/-- The inline checking and persistence-touching call sites of the notebook,
in cell order: the VanillaSGD test cell loads the expected tensor with
`torch.load` and asserts on the difference; the dataset cell downloads
CIFAR-10 twice; the overfit cell asserts on the best accuracy; the MLP
architecture cell asserts on the sequence; the gradient-comparison cell
asserts on the differences in train and test mode. -/
def notebookOps : List NBOp :=
  [NBOp.torchLoad AssetFile.expectedVsgdPt, NBOp.assertLess,
   NBOp.cifarDownload, NBOp.cifarDownload,
   NBOp.assertGreaterEqual,
   NBOp.assertEqual, NBOp.assertTrue, NBOp.assertTrue,
   NBOp.assertLess, NBOp.assertLess]

/-- Whether an operation is an inline check (a pass/fail comparison). -/
def NBOp.isCheck : NBOp → Bool
  | .assertLess | .assertGreaterEqual | .assertEqual | .assertTrue => true
  | _ => false

/-- Whether an operation fails through a `unittest.TestCase` assertion
(`assertLess`, `assertGreaterEqual`, `assertEqual`, `assertTrue`). -/
def NBOp.isTestCaseAssertion : NBOp → Bool
  | .assertLess | .assertGreaterEqual | .assertEqual | .assertTrue => true
  | _ => false

/-- Whether an operation reads serialized program state.  `torch.load` of a
saved tensor does; the CIFAR-10 download touches dataset files, which are
data rather than program state. -/
def NBOp.readsSerializedState : NBOp → Bool
  | .torchLoad _ => true
  | _ => false

/-- Whether an operation writes serialized program state: none does. -/
def NBOp.writesSerializedState : NBOp → Bool
  | _ => false

/-- C8 counterexample: the notebook does read serialized program state: the
VanillaSGD test cell calls `torch.load` on the saved expected tensor
`tests/assets/expected_vsgd.pt`, so the claim that it reads or writes no
serialized program state fails at that call site. -/
theorem notebook_reads_serialized_state :
    NBOp.torchLoad AssetFile.expectedVsgdPt ∈ notebookOps
    ∧ (NBOp.torchLoad AssetFile.expectedVsgdPt).readsSerializedState = true := by
  decide

/-- C8 (amended): every inline check of the notebook fails only through a
`unittest.TestCase` assertion, the notebook writes no serialized program
state, and the only serialized program state it reads is the expected
tensor `tests/assets/expected_vsgd.pt` loaded by `torch.load` in the
VanillaSGD test. -/
theorem notebook_checks_are_assertions :
    (notebookOps.all fun op => !op.isCheck || op.isTestCaseAssertion) = true
    ∧ (notebookOps.all fun op => !op.writesSerializedState) = true
    ∧ notebookOps.filter NBOp.readsSerializedState
        = [NBOp.torchLoad AssetFile.expectedVsgdPt] := by
  decide

end HW2
